import Mathlib

/-!
Verification of the VideoFreeze analyzer core (src/analyzer) against its
specification.  The scorer, selector and frame extractor are embedded as
executable Lean functions; pixel-level metric pipelines that run inside
OpenCV (face cascade detection, Canny edge extraction, luminance statistics)
enter the embedding as explicit inputs of the functions that consume their
results, exactly at the boundary where the Python code receives them.
Machine floats are modelled by rationals.
-/

namespace VideoFreeze

/-- Per-frame aesthetic score record returned by score_frame
(src/analyzer/aesthetic_scorer.py, lines 50-58). -/
structure ScoreBreakdown where
  overall : ℚ
  sharpness : ℚ
  face_clarity : ℚ
  face_count : ℕ
  brightness : ℚ
  composition : ℚ
deriving DecidableEq

/-- Weight dictionary combining the four metrics (keys of DEFAULT_WEIGHTS in
src/analyzer/aesthetic_scorer.py). -/
structure WeightSet where
  sharpness : ℚ
  face_clarity : ℚ
  brightness : ℚ
  composition : ℚ
deriving DecidableEq

/-- DEFAULT_WEIGHTS of src/analyzer/aesthetic_scorer.py. -/
def DEFAULT_WEIGHTS : WeightSet :=
  { sharpness := 3 / 10, face_clarity := 1 / 4, brightness := 1 / 5, composition := 1 / 4 }

/-- The four per-frame metric functions (calculate_sharpness, detect_faces,
calculate_brightness_balance, calculate_composition_score) in the shape
score_frame consumes them: pure functions of one frame.  Their pixel-level
internals run in OpenCV, so the scorer is embedded parametrically in them;
the post-detection arithmetic of the individual metrics is embedded
separately below. -/
structure MetricFns (F : Type) where
  sharpness : F → ℚ
  face : F → ℚ × ℕ
  brightness : F → ℚ
  composition : F → ℚ

/-- A constant metric assignment on a trivial frame type, used to
instantiate the scorer theorems on concrete inputs. -/
def constMetrics (s fcv : ℚ) (fcn : ℕ) (b c : ℚ) : MetricFns Unit :=
  { sharpness := fun _ => s,
    face := fun _ => (fcv, fcn),
    brightness := fun _ => b,
    composition := fun _ => c }

/-- score_frame (src/analyzer/aesthetic_scorer.py, lines 24-59): the four
metrics are computed independently and combined by the weighted sum. -/
def score_frame {F : Type} (M : MetricFns F) (w : WeightSet) (frame : F) : ScoreBreakdown :=
  let s := M.sharpness frame
  let fc := M.face frame
  let b := M.brightness frame
  let c := M.composition frame
  { overall := s * w.sharpness + fc.1 * w.face_clarity + b * w.brightness + c * w.composition,
    sharpness := s,
    face_clarity := fc.1,
    face_count := fc.2,
    brightness := b,
    composition := c }

/-- Failures of the scorer entry points: the ValueError raised on an empty
frame list, and the IndexError Python would raise on an out-of-range final
frames[best_index] lookup. -/
inductive ScorerError
  | emptyInput
  | indexError
deriving DecidableEq

/-- One progress-callback invocation: `if progress_callback:
progress_callback(done, total)`.  A hook is modelled as a transformer of its
own observer state σ, which is disjoint from the scorer state. -/
def cbApply {σ : Type} (cb : Option (ℕ → ℕ → σ → σ)) (done total : ℕ) (s : σ) : σ :=
  match cb with
  | some f => f done total s
  | none => s

/-- The scan loop of find_best_frame (src/analyzer/aesthetic_scorer.py,
lines 85-95): iterates over the enumerated samples keeping the running
(best_index, best_score, best_scores_dict) triple, and threads the state σ of
the optional progress callback, which is invoked after each sample is scored
with (i + 1, n). -/
def fbLoopCB {F σ : Type} (M : MetricFns F) (w : WeightSet) (n : ℕ)
    (cb : Option (ℕ → ℕ → σ → σ)) :
    List (F × ℚ) → ℕ → (ℕ × ℚ × Option ScoreBreakdown) → σ →
      (ℕ × ℚ × Option ScoreBreakdown) × σ
  | [], _, core, s => (core, s)
  | e :: rest, i, core, s =>
    let scores := score_frame M w e.1
    fbLoopCB M w n cb rest (i + 1)
      (if core.2.1 < scores.overall then (i, scores.overall, some scores) else core)
      (cbApply cb (i + 1) n s)

/-- find_best_frame (src/analyzer/aesthetic_scorer.py, lines 62-99).
Raises on an empty list; otherwise scans the samples starting from
(best_index, best_score, best_scores_dict) = (0, -1, None) and finally looks
up frames[best_index]. -/
def find_best_frame {F σ : Type} (M : MetricFns F) (frames : List (F × ℚ)) (w : WeightSet)
    (cb : Option (ℕ → ℕ → σ → σ)) (s0 : σ) :
    Except ScorerError ((ℕ × F × ℚ × Option ScoreBreakdown) × σ) :=
  if frames.isEmpty then .error .emptyInput
  else
    let r := fbLoopCB M w frames.length cb frames 0 (0, -1, none) s0
    match frames.get? r.1.1 with
    | some e => .ok ((r.1.1, e.1, e.2, r.1.2.2), r.2)
    | none => .error .indexError

/-- The accumulation loop of score_all_frames (src/analyzer/aesthetic_scorer.py,
lines 119-125): appends (timestamp, scores) per sample and threads the
progress-callback state. -/
def saLoopCB {F σ : Type} (M : MetricFns F) (w : WeightSet) (n : ℕ)
    (cb : Option (ℕ → ℕ → σ → σ)) :
    List (F × ℚ) → ℕ → List (ℚ × ScoreBreakdown) → σ → List (ℚ × ScoreBreakdown) × σ
  | [], _, acc, s => (acc, s)
  | e :: rest, i, acc, s =>
    let scores := score_frame M w e.1
    saLoopCB M w n cb rest (i + 1) (acc ++ [(e.2, scores)]) (cbApply cb (i + 1) n s)

/-- score_all_frames (src/analyzer/aesthetic_scorer.py, lines 102-127):
no emptiness check, results accumulated in input order. -/
def score_all_frames {F σ : Type} (M : MetricFns F) (frames : List (F × ℚ)) (w : WeightSet)
    (cb : Option (ℕ → ℕ → σ → σ)) (s0 : σ) : List (ℚ × ScoreBreakdown) × σ :=
  saLoopCB M w frames.length cb frames 0 [] s0

/-- A video source as cv2.VideoCapture presents it to extract_frames: whether
the container opened, the decoder-reported native frame rate (CAP_PROP_FPS),
and the native frames in decode order. -/
structure Video (F : Type) where
  isOpened : Bool
  fps : ℚ
  frames : List F

/-- Failures of extract_frames (src/analyzer/frame_extractor.py): the
ValueError on an unopenable container, the RuntimeError on FPS reported as
exactly 0, the ZeroDivisionError Python raises at int(video_fps / fps) when
the requested rate is 0, and the RuntimeError on zero kept frames. -/
inductive ExtractError
  | couldNotOpen
  | fpsIndeterminate
  | zeroDivision
  | noFrames
deriving DecidableEq

/-- Python int() applied to a rational: truncation toward zero. -/
def pyTrunc (q : ℚ) : ℤ := if q < 0 then -Int.floor (-q) else Int.floor q

/-- frame_interval computation of extract_frames (src/analyzer/frame_extractor.py,
lines 46-48): int(video_fps / fps), clamped below by 1. -/
def frameIntervalOf (videoFps targetFps : ℚ) : ℤ :=
  let fi := pyTrunc (videoFps / targetFps)
  if fi < 1 then 1 else fi

/-- The decode loop of extract_frames (src/analyzer/frame_extractor.py,
lines 53-66): the frame at native index k is kept iff k mod frame_interval
is 0, with timestamp k / video_fps. -/
def exLoop {F : Type} (videoFps : ℚ) (interval : ℤ) : List F → ℕ → List (F × ℚ)
  | [], _ => []
  | fr :: rest, k =>
    if (k : ℤ) % interval = 0 then
      (fr, (k : ℚ) / videoFps) :: exLoop videoFps interval rest (k + 1)
    else exLoop videoFps interval rest (k + 1)

/-- extract_frames (src/analyzer/frame_extractor.py, lines 12-72).  The
total_frames/duration computation of the source is dead code and omitted;
the checks and the decode loop are in source order. -/
def extract_frames {F : Type} (v : Video F) (fps : ℚ) : Except ExtractError (List (F × ℚ)) :=
  if v.isOpened = false then .error .couldNotOpen
  else if v.fps = 0 then .error .fpsIndeterminate
  else if fps = 0 then .error .zeroDivision
  else
    let kept := exLoop v.fps (frameIntervalOf v.fps fps) v.frames 0
    if kept.isEmpty then .error .noFrames else .ok kept

/-- The sample list claim C3 describes for a given stride: keep exactly the
native indices k with k mod stride = 0, each with timestamp k / F. -/
def keptSamples {F : Type} (videoFps : ℚ) (stride : ℤ) (l : List F) : List (F × ℚ) :=
  (List.range l.length).filterMap fun (k : ℕ) =>
    if (k : ℤ) % stride = 0 then (l.get? k).map (fun fr => (fr, (k : ℚ) / videoFps)) else none

/-- The decode stride exactly as claim C3 states it: max(1, round(F / R)). -/
def strideSpec (videoFps targetFps : ℚ) : ℤ := max 1 (round (videoFps / targetFps))

/-- calculate_brightness_balance (src/analyzer/brightness.py, lines 44-68):
the score arithmetic on the luminance statistics mu = np.mean(gray),
sigma = np.std(gray) and the extreme-bin histogram fractions
dark = sum(hist_norm[0:10]) and bright = sum(hist_norm[246:256]); those
statistics are produced by OpenCV upstream of the cited lines and enter
here as inputs. -/
def calculate_brightness_balance (mu sigma dark bright : ℚ) : ℚ :=
  let brightness_deviation := |mu - 127| / 127
  let brightness_score := (1 - brightness_deviation) * 50
  let clipping_penalty := (dark + bright) * 100
  let clipping_score := max 0 (30 - clipping_penalty)
  let contrast_score : ℚ :=
    if 40 ≤ sigma ∧ sigma ≤ 80 then 20
    else if (30 ≤ sigma ∧ sigma < 40) ∨ (80 < sigma ∧ sigma ≤ 100) then 15
    else if (20 ≤ sigma ∧ sigma < 30) ∨ (100 < sigma ∧ sigma ≤ 120) then 10
    else 5
  min 100 (max 0 (brightness_score + clipping_score + contrast_score))

/-- clamp(x, lo, hi) as claim C5 words it. -/
def clampSpec (lo hi x : ℚ) : ℚ := max lo (min hi x)

/-- The contrast step function as claim C5 words it: 20 for sigma in [40,80],
15 for [30,40) or (80,100], 10 for [20,30) or (100,120], 5 otherwise. -/
def contrastBandSpec (sigma : ℚ) : ℚ :=
  if sigma ∈ Set.Icc (40 : ℚ) 80 then 20
  else if sigma ∈ Set.Ico (30 : ℚ) 40 ∪ Set.Ioc 80 100 then 15
  else if sigma ∈ Set.Ico (20 : ℚ) 30 ∪ Set.Ioc 100 120 then 10
  else 5

/-- The brightness score as claim C5 words it:
clamp(centering + clipping + contrast, 0, 100) with
centering = 50 * (1 - |mu - 127| / 127) and clipping = max(0, 30 - clip*100). -/
def brightnessSpec (mu sigma clip : ℚ) : ℚ :=
  clampSpec 0 100 (50 * (1 - |mu - 127| / 127) + max 0 (30 - clip * 100) + contrastBandSpec sigma)

/-- The scoring stage of detect_faces (src/analyzer/face_detector.py,
lines 54-86): input is the list of face boxes (x, y, w, h) produced by the
cascade detector (an external OpenCV model) together with the gray.shape
frame dimensions. -/
def detect_faces_score (height width : ℕ) (faces : List (ℕ × ℕ × ℕ × ℕ)) : ℚ × ℕ :=
  let frame_area := height * width
  let face_count := faces.length
  if face_count = 0 then (0, 0)
  else
    let total_face_area : ℕ := (faces.map fun b => b.2.2.1 * b.2.2.2).sum
    let face_coverage := ((total_face_area : ℚ) / (frame_area : ℚ)) * 100
    let base_score := min (face_coverage * 3) 70
    let count_bonus : ℚ :=
      if 1 ≤ face_count ∧ face_count ≤ 3 then 30
      else if face_count = 4 then 20
      else if face_count = 5 then 10
      else 5
    (min (base_score + count_bonus) 100, face_count)

/-- The face score formula as claim C6 words it for n ≥ 1 boxes:
min(min(coverage * 3, 70) + bonus, 100) with
coverage = 100 * (sum of box areas) / (frame area) and bonus 30 for 1-3
faces, 20 for 4, 10 for 5, 5 for 6 or more. -/
def faceScoreSpec (height width : ℕ) (faces : List (ℕ × ℕ × ℕ × ℕ)) : ℚ :=
  let totalArea : ℕ := (faces.map fun b => b.2.2.1 * b.2.2.2).sum
  let coverage : ℚ := 100 * (totalArea : ℚ) / ((height * width : ℕ) : ℚ)
  let bonus : ℚ :=
    if faces.length ≤ 3 then 30
    else if faces.length = 4 then 20
    else if faces.length = 5 then 10
    else 5
  min (min (coverage * 3) 70 + bonus) 100

/-- Pixel value of the binary edge map produced by cv2.Canny as
calculate_composition_score consumes it: edge pixels carry the uint8 value
255, non-edge pixels 0.  The edge map itself is an external OpenCV result
and enters the embedding as the predicate E. -/
def edgeVal (E : ℕ → ℕ → Bool) (y x : ℕ) : ℕ := if E y x then 255 else 0

/-- np.sum over the edge-map slice of rows [y1, y2) and cols [x1, x2). -/
def regionSum (E : ℕ → ℕ → Bool) (y1 y2 x1 x2 : ℕ) : ℕ :=
  ((List.range (y2 - y1)).map fun i =>
    ((List.range (x2 - x1)).map fun j => edgeVal E (y1 + i) (x1 + j)).sum).sum

/-- Number of edge pixels in the slice of rows [y1, y2) and cols [x1, x2). -/
def edgeCount (E : ℕ → ℕ → Bool) (y1 y2 x1 x2 : ℕ) : ℕ :=
  ((List.range (y2 - y1)).map fun i =>
    ((List.range (x2 - x1)).map (fun j => if E (y1 + i) (x1 + j) then (1 : ℕ) else 0)).sum).sum

/-- One term of the rule-of-thirds loop of calculate_composition_score
(src/analyzer/composition.py, lines 61-76): the window around the point
p = (rot_x, rot_y) is clipped to the frame, and if it is non-empty the
edge density np.sum(region) / region.size contributes min(25, density / 10). -/
def rotWindowTerm (height width check_radius : ℕ) (E : ℕ → ℕ → Bool) (p : ℕ × ℕ) : ℚ :=
  let y1 := p.2 - check_radius
  let y2 := min height (p.2 + check_radius)
  let x1 := p.1 - check_radius
  let x2 := min width (p.1 + check_radius)
  let size := (y2 - y1) * (x2 - x1)
  if 0 < size then
    let edge_density : ℚ := (regionSum E y1 y2 x1 x2 : ℚ) / (size : ℚ)
    min 25 (edge_density / 10)
  else 0

/-- The four rule-of-thirds intersection points of
src/analyzer/composition.py, lines 36-42 (// is integer division). -/
def rotPoints (height width : ℕ) : List (ℕ × ℕ) :=
  let third_h := height / 3
  let third_w := width / 3
  [(third_w, third_h), (2 * third_w, third_h), (third_w, 2 * third_h), (2 * third_w, 2 * third_h)]

/-- The total rule-of-thirds contribution accumulated into total_score by
the loop of src/analyzer/composition.py, lines 61-76, with
check_radius = max(height, width) // 12. -/
def rotContribution (height width : ℕ) (E : ℕ → ℕ → Bool) : ℚ :=
  ((rotPoints height width).map (rotWindowTerm height width (max height width / 12) E)).sum

/-- calculate_composition_score (src/analyzer/composition.py, lines 10-108)
on the Canny edge map of a height x width frame.  The interest_map built at
lines 44-58 is dead code (never read after its normalization) and is
omitted; the rule-of-thirds term, the left/right and top/bottom balance
terms, the center-bias penalty and the final clamp follow the source. -/
def calculate_composition_score (height width : ℕ) (E : ℕ → ℕ → Bool) : ℚ :=
  let third_h := height / 3
  let third_w := width / 3
  let total_score := rotContribution height width E
  let left_edges := regionSum E 0 height 0 (width / 2)
  let right_edges := regionSum E 0 height (width / 2) width
  let top_edges := regionSum E 0 (height / 2) 0 width
  let bottom_edges := regionSum E (height / 2) height 0 width
  let lr_balance : ℚ :=
    if 0 < left_edges + right_edges then
      1 - |(left_edges : ℚ) - (right_edges : ℚ)| / ((left_edges : ℚ) + (right_edges : ℚ))
    else 0
  let tb_balance : ℚ :=
    if 0 < top_edges + bottom_edges then
      1 - |(top_edges : ℚ) - (bottom_edges : ℚ)| / ((top_edges : ℚ) + (bottom_edges : ℚ))
    else 0
  let center_sum := regionSum E third_h (2 * third_h) third_w (2 * third_w)
  let total_sum := regionSum E 0 height 0 width
  let center_penalty : ℚ :=
    if 0 < total_sum then
      let center_weight : ℚ := (center_sum : ℚ) / (total_sum : ℚ)
      if 1 / 2 < center_weight then max 0 ((center_weight - 1 / 2) * 20) else 0
    else 0
  let balance_score := (lr_balance + tb_balance) * 10
  min 100 (max 0 (total_score + balance_score - center_penalty))

/-- One window term as claim C7 words it: the same window geometry, but with
the density taken to be the FRACTION of edge pixels in the window. -/
def rotWindowTermFracSpec (height width check_radius : ℕ) (E : ℕ → ℕ → Bool)
    (p : ℕ × ℕ) : ℚ :=
  let y1 := p.2 - check_radius
  let y2 := min height (p.2 + check_radius)
  let x1 := p.1 - check_radius
  let x2 := min width (p.1 + check_radius)
  let size := (y2 - y1) * (x2 - x1)
  if 0 < size then
    let density : ℚ := (edgeCount E y1 y2 x1 x2 : ℚ) / (size : ℚ)
    min 25 (density / 10)
  else 0

/-- The rule-of-thirds contribution as claim C7 words it (fraction density). -/
def rotContributionFracSpec (height width : ℕ) (E : ℕ → ℕ → Bool) : ℚ :=
  ((rotPoints height width).map (rotWindowTermFracSpec height width (max height width / 12) E)).sum

/-- One window term with the density as the code actually computes it: the
mean value of the 0/255 edge map over the window, i.e. 255 times the
fraction of edge pixels. -/
def rotWindowTermMeanSpec (height width check_radius : ℕ) (E : ℕ → ℕ → Bool)
    (p : ℕ × ℕ) : ℚ :=
  let y1 := p.2 - check_radius
  let y2 := min height (p.2 + check_radius)
  let x1 := p.1 - check_radius
  let x2 := min width (p.1 + check_radius)
  let size := (y2 - y1) * (x2 - x1)
  if 0 < size then
    let density : ℚ := 255 * ((edgeCount E y1 y2 x1 x2 : ℚ) / (size : ℚ))
    min 25 (density / 10)
  else 0

/-- The rule-of-thirds contribution with the 255-scaled mean density. -/
def rotContributionMeanSpec (height width : ℕ) (E : ℕ → ℕ → Bool) : ℚ :=
  ((rotPoints height width).map (rotWindowTermMeanSpec height width (max height width / 12) E)).sum

/-- The overall score of one sample, as the scan loop compares samples. -/
def overallOf {F : Type} (M : MetricFns F) (w : WeightSet) (e : F × ℚ) : ℚ :=
  (score_frame M w e.1).overall

/-- Invariant of the find_best_frame scan loop: either no sample strictly
beats the incoming best score and the core state is returned unchanged, or
the loop returns the first sample whose overall score strictly exceeds every
earlier one and at least matches every later one. -/
theorem fbLoopCB_spec {F σ : Type} (M : MetricFns F) (w : WeightSet) (n : ℕ)
    (cb : Option (ℕ → ℕ → σ → σ)) :
    ∀ (l : List (F × ℚ)) (i0 : ℕ) (core : ℕ × ℚ × Option ScoreBreakdown) (s : σ),
      ((fbLoopCB M w n cb l i0 core s).1 = core ∧
        ∀ x ∈ l, overallOf M w x ≤ core.2.1) ∨
      (∃ k e, l.get? k = some e ∧
        (fbLoopCB M w n cb l i0 core s).1 =
          (i0 + k, overallOf M w e, some (score_frame M w e.1)) ∧
        core.2.1 < overallOf M w e ∧
        (∀ x ∈ l, overallOf M w x ≤ overallOf M w e) ∧
        (∀ j x, j < k → l.get? j = some x → overallOf M w x < overallOf M w e)) := by
  intro l
  induction l with
  | nil =>
    intro i0 core s
    left
    exact ⟨rfl, by simp⟩
  | cons a rest ih =>
    intro i0 core s
    by_cases hlt : core.2.1 < (score_frame M w a.1).overall
    · have hstep : fbLoopCB M w n cb (a :: rest) i0 core s =
        fbLoopCB M w n cb rest (i0 + 1)
          (i0, (score_frame M w a.1).overall, some (score_frame M w a.1))
          (cbApply cb (i0 + 1) n s) := by
        simp only [fbLoopCB, if_pos hlt]
      rw [hstep]
      rcases ih (i0 + 1) (i0, (score_frame M w a.1).overall, some (score_frame M w a.1))
          (cbApply cb (i0 + 1) n s) with
        ⟨heq, hall⟩ | ⟨k, e, hget, hres, hgt, hall, hfirst⟩
      · right
        refine ⟨0, a, rfl, ?_, hlt, ?_, ?_⟩
        · rw [heq]
          simp [overallOf]
        · intro x hx
          rcases List.mem_cons.mp hx with hx | hx
          · subst hx
            exact le_refl _
          · exact le_trans (hall x hx) (le_refl _)
        · intro j x hj hx
          omega
      · have hgt' : overallOf M w a < overallOf M w e := by
          simpa [overallOf] using hgt
        right
        refine ⟨k + 1, e, by simpa using hget, ?_, lt_trans hlt hgt, ?_, ?_⟩
        · rw [hres]
          have harith : i0 + 1 + k = i0 + (k + 1) := by omega
          rw [harith]
        · intro x hx
          rcases List.mem_cons.mp hx with hx | hx
          · subst hx
            exact le_of_lt hgt'
          · exact hall x hx
        · intro j x hj hx
          cases j with
          | zero =>
            have hax : a = x := by simpa using hx
            subst hax
            exact hgt'
          | succ j' =>
            exact hfirst j' x (by omega) (by simpa using hx)
    · have hstep : fbLoopCB M w n cb (a :: rest) i0 core s =
        fbLoopCB M w n cb rest (i0 + 1) core (cbApply cb (i0 + 1) n s) := by
        simp only [fbLoopCB, if_neg hlt]
      rw [hstep]
      have hle : overallOf M w a ≤ core.2.1 := not_lt.mp hlt
      rcases ih (i0 + 1) core (cbApply cb (i0 + 1) n s) with
        ⟨heq, hall⟩ | ⟨k, e, hget, hres, hgt, hall, hfirst⟩
      · left
        refine ⟨heq, ?_⟩
        intro x hx
        rcases List.mem_cons.mp hx with hx | hx
        · subst hx
          exact hle
        · exact hall x hx
      · right
        refine ⟨k + 1, e, by simpa using hget, ?_, hgt, ?_, ?_⟩
        · rw [hres]
          have harith : i0 + 1 + k = i0 + (k + 1) := by omega
          rw [harith]
        · intro x hx
          rcases List.mem_cons.mp hx with hx | hx
          · subst hx
            exact le_trans hle (le_of_lt hgt)
          · exact hall x hx
        · intro j x hj hx
          cases j with
          | zero =>
            have hax : a = x := by simpa using hx
            subst hax
            exact lt_of_le_of_lt hle hgt
          | succ j' =>
            exact hfirst j' x (by omega) (by simpa using hx)

/-- The scorer state of the scan loop does not depend on the progress hook
or its observer state. -/
theorem fbLoopCB_fst_hook_free {F σ σ' : Type} (M : MetricFns F) (w : WeightSet)
    (n n' : ℕ) (cb : Option (ℕ → ℕ → σ → σ)) (cb' : Option (ℕ → ℕ → σ' → σ')) :
    ∀ (l : List (F × ℚ)) (i : ℕ) (core : ℕ × ℚ × Option ScoreBreakdown) (s : σ) (s' : σ'),
      (fbLoopCB M w n cb l i core s).1 = (fbLoopCB M w n' cb' l i core s').1 := by
  intro l
  induction l with
  | nil =>
    intro i core s s'
    rfl
  | cons a rest ih =>
    intro i core s s'
    simp only [fbLoopCB]
    exact ih _ _ _ _

/-- The result list accumulated by the score_all_frames loop: one
(timestamp, breakdown) pair per sample, in input order, independent of the
progress hook. -/
theorem saLoopCB_fst {F σ : Type} (M : MetricFns F) (w : WeightSet) (n : ℕ)
    (cb : Option (ℕ → ℕ → σ → σ)) :
    ∀ (l : List (F × ℚ)) (i : ℕ) (acc : List (ℚ × ScoreBreakdown)) (s : σ),
      (saLoopCB M w n cb l i acc s).1 =
        acc ++ l.map (fun e => (e.2, score_frame M w e.1)) := by
  intro l
  induction l with
  | nil =>
    intro i acc s
    simp [saLoopCB]
  | cons a rest ih =>
    intro i acc s
    simp only [saLoopCB]
    rw [ih]
    simp

/-- Progress-hook trace of the find_best_frame loop: starting at loop index
i, the hook is applied once per sample with done counts i+1, i+2, ... . -/
theorem fbLoopCB_snd {F σ : Type} (M : MetricFns F) (w : WeightSet) (n : ℕ)
    (cb : Option (ℕ → ℕ → σ → σ)) :
    ∀ (l : List (F × ℚ)) (i : ℕ) (core : ℕ × ℚ × Option ScoreBreakdown) (s : σ),
      (fbLoopCB M w n cb l i core s).2 =
        (List.range' (i + 1) l.length).foldl (fun t d => cbApply cb d n t) s := by
  intro l
  induction l with
  | nil =>
    intro i core s
    rfl
  | cons a rest ih =>
    intro i core s
    simp only [fbLoopCB, List.length_cons, List.range'_succ, List.foldl_cons]
    exact ih _ _ _

/-- Progress-hook trace of the score_all_frames loop. -/
theorem saLoopCB_snd {F σ : Type} (M : MetricFns F) (w : WeightSet) (n : ℕ)
    (cb : Option (ℕ → ℕ → σ → σ)) :
    ∀ (l : List (F × ℚ)) (i : ℕ) (acc : List (ℚ × ScoreBreakdown)) (s : σ),
      (saLoopCB M w n cb l i acc s).2 =
        (List.range' (i + 1) l.length).foldl (fun t d => cbApply cb d n t) s := by
  intro l
  induction l with
  | nil =>
    intro i acc s
    rfl
  | cons a rest ih =>
    intro i acc s
    simp only [saLoopCB, List.length_cons, List.range'_succ, List.foldl_cons]
    exact ih _ _ _

/-- Full characterization of a successful find_best_frame run: when every
sample scores at least 0 overall (as the code's metrics guarantee), the call
returns the first sample attaining the maximum overall score, together with
its own breakdown. -/
theorem find_best_frame_spec {F σ : Type} (M : MetricFns F) (w : WeightSet)
    (frames : List (F × ℚ)) (cb : Option (ℕ → ℕ → σ → σ)) (s0 : σ)
    (hne : frames ≠ [])
    (hnn : ∀ x ∈ frames, 0 ≤ overallOf M w x) :
    ∃ k e sf, frames.get? k = some e ∧
      find_best_frame M frames w cb s0 = .ok ((k, e.1, e.2, some (score_frame M w e.1)), sf) ∧
      (∀ x ∈ frames, overallOf M w x ≤ overallOf M w e) ∧
      (∀ j x, j < k → frames.get? j = some x → overallOf M w x < overallOf M w e) := by
  have hie : frames.isEmpty = false := List.isEmpty_eq_false.mpr hne
  rcases fbLoopCB_spec M w frames.length cb frames 0 (0, -1, none) s0 with
    ⟨heq, hall⟩ | ⟨k, e, hget, hres, hgt, hall, hfirst⟩
  · exfalso
    rcases List.exists_mem_of_ne_nil frames hne with ⟨x, hx⟩
    have h1 := hall x hx
    have h2 := hnn x hx
    simp only at h1
    linarith
  · refine ⟨k, e, (fbLoopCB M w frames.length cb frames 0 (0, -1, none) s0).2,
      hget, ?_, hall, hfirst⟩
    simp only [find_best_frame, hie, Bool.false_eq_true, if_false, hres, Nat.zero_add, hget]

/-- The decode loop keeps exactly the indices congruent to 0 modulo the
interval, shifted by the start counter. -/
theorem exLoop_eq {F : Type} (vf : ℚ) (s : ℤ) :
    ∀ (l : List F) (k0 : ℕ),
      exLoop vf s l k0 = (List.range l.length).filterMap (fun j =>
        if ((k0 + j : ℕ) : ℤ) % s = 0 then
          (l.get? j).map (fun fr => (fr, ((k0 + j : ℕ) : ℚ) / vf))
        else none) := by
  intro l
  induction l with
  | nil =>
    intro k0
    simp [exLoop]
  | cons a rest ih =>
    intro k0
    set f : ℕ → Option (F × ℚ) := fun j => if ((k0 + j : ℕ) : ℤ) % s = 0 then
        ((a :: rest).get? j).map (fun fr => (fr, ((k0 + j : ℕ) : ℚ) / vf))
      else none with hf
    have hfun : f ∘ Nat.succ = (fun j => if (((k0 + 1) + j : ℕ) : ℤ) % s = 0 then
        (rest.get? j).map (fun fr => (fr, (((k0 + 1) + j : ℕ) : ℚ) / vf))
      else none) := by
      funext j
      have harith : k0 + (j + 1) = k0 + 1 + j := by omega
      rw [hf]
      simp only [Function.comp_apply, Nat.succ_eq_add_one, List.get?_cons_succ, harith]
    rw [List.length_cons, List.range_succ_eq_map]
    by_cases hc : (k0 : ℤ) % s = 0
    · have hhead : f 0 = some (a, (k0 : ℚ) / vf) := by
        rw [hf]
        simp [hc]
      have hstep : exLoop vf s (a :: rest) k0 =
          (a, (k0 : ℚ) / vf) :: exLoop vf s rest (k0 + 1) := by
        simp only [exLoop, if_pos hc]
      rw [List.filterMap_cons_some hhead, hstep, ih (k0 + 1), ← hfun, List.filterMap_map]
    · have hhead : f 0 = none := by
        rw [hf]
        simp [hc]
      have hstep : exLoop vf s (a :: rest) k0 = exLoop vf s rest (k0 + 1) := by
        simp only [exLoop, if_neg hc]
      rw [List.filterMap_cons_none hhead, hstep, ih (k0 + 1), ← hfun, List.filterMap_map]

/-- On a non-empty native frame list the kept-sample list starts with the
frame of index 0 at timestamp 0. -/
theorem keptSamples_cons {F : Type} (vf : ℚ) (s : ℤ) (a : F) (rest : List F) :
    ∃ t, keptSamples vf s (a :: rest) = (a, 0) :: t := by
  unfold keptSamples
  set f : ℕ → Option (F × ℚ) := fun (k : ℕ) => if (k : ℤ) % s = 0 then
      (((a :: rest).get? k).map (fun fr => (fr, (k : ℚ) / vf)))
    else none with hf
  have hhead : f 0 = some (a, 0) := by
    rw [hf]
    simp
  refine ⟨List.filterMap f ((List.range rest.length).map Nat.succ), ?_⟩
  rw [List.length_cons, List.range_succ_eq_map]
  exact List.filterMap_cons_some hhead

/-- A successful extract_frames run returns exactly the kept-sample list of
the computed frame interval. -/
theorem extract_frames_eq {F : Type} (v : Video F) (fps : ℚ)
    (ho : v.isOpened = true) (hv : v.fps ≠ 0) (hr : fps ≠ 0) (hne : v.frames ≠ []) :
    extract_frames v fps = .ok (keptSamples v.fps (frameIntervalOf v.fps fps) v.frames) := by
  have hloop : exLoop v.fps (frameIntervalOf v.fps fps) v.frames 0 =
      keptSamples v.fps (frameIntervalOf v.fps fps) v.frames := by
    rw [exLoop_eq]
    unfold keptSamples
    simp
  have hkept : keptSamples v.fps (frameIntervalOf v.fps fps) v.frames ≠ [] := by
    rcases List.exists_cons_of_ne_nil hne with ⟨a, rest, hcons⟩
    rcases keptSamples_cons v.fps (frameIntervalOf v.fps fps) a rest with ⟨t, ht⟩
    rw [hcons, ht]
    exact List.cons_ne_nil _ _
  have hie : (keptSamples v.fps (frameIntervalOf v.fps fps) v.frames).isEmpty = false :=
    List.isEmpty_eq_false.mpr hkept
  simp only [extract_frames, ho, hv, hr, hloop, hie]
  simp

/-- Pairwise relations survive filterMap when the produced values inherit
them from the originating elements. -/
theorem pairwise_filterMap_of {α β : Type} (f : α → Option β) (R : α → α → Prop)
    (S : β → β → Prop)
    (h : ∀ a b, R a b → ∀ x, f a = some x → ∀ y, f b = some y → S x y) :
    ∀ l : List α, l.Pairwise R → (l.filterMap f).Pairwise S := by
  intro l
  induction l with
  | nil =>
    intro _
    simp
  | cons a rest ih =>
    intro hp
    rcases List.pairwise_cons.mp hp with ⟨hhead, htail⟩
    cases hfa : f a with
    | none =>
      rw [List.filterMap_cons_none hfa]
      exact ih htail
    | some x =>
      rw [List.filterMap_cons_some hfa]
      refine List.pairwise_cons.mpr ⟨?_, ih htail⟩
      intro y hy
      rcases List.mem_filterMap.mp hy with ⟨b, hb, hfb⟩
      exact h a b (hhead b hb) x hfa y hfb

/-- Timestamps of the kept samples are strictly increasing whenever the
native frame rate is positive. -/
theorem keptSamples_timestamps_sorted {F : Type} (vf : ℚ) (hvf : 0 < vf) (s : ℤ)
    (l : List F) :
    ((keptSamples vf s l).map Prod.snd).Pairwise (fun x y => x < y) := by
  unfold keptSamples
  rw [List.map_filterMap]
  refine pairwise_filterMap_of _ (fun a b => a < b) _ ?_ _ (List.pairwise_lt_range l.length)
  intro a b hab x hx y hy
  by_cases ha : ((a : ℕ) : ℤ) % s = 0
  · by_cases hb : ((b : ℕ) : ℤ) % s = 0
    · rw [if_pos ha] at hx
      rw [if_pos hb] at hy
      cases hga : l.get? a with
      | none =>
        rw [hga] at hx
        simp at hx
      | some fa =>
        cases hgb : l.get? b with
        | none =>
          rw [hgb] at hy
          simp at hy
        | some fb =>
          rw [hga] at hx
          rw [hgb] at hy
          simp only [Option.map_some'] at hx hy
          injection hx with hx
          injection hy with hy
          rw [← hx, ← hy]
          exact div_lt_div_of_pos_right (by exact_mod_cast hab) hvf
    · rw [if_neg hb] at hy
      simp at hy
  · rw [if_neg ha] at hx
    simp at hx

/-- keptSamples of an empty native list is empty. -/
theorem keptSamples_nil {F : Type} (vf : ℚ) (s : ℤ) :
    keptSamples vf s ([] : List F) = [] := by
  simp [keptSamples]

/-- Inversion of a successful extract_frames run: the returned list is the
kept-sample list and the native list was non-empty. -/
theorem extract_frames_ok_inv {F : Type} (v : Video F) (fps : ℚ) (l : List (F × ℚ))
    (h : extract_frames v fps = .ok l) :
    l = keptSamples v.fps (frameIntervalOf v.fps fps) v.frames ∧ v.frames ≠ [] := by
  unfold extract_frames at h
  by_cases h1 : v.isOpened = false
  · rw [if_pos h1] at h
    exact absurd h (by simp)
  rw [if_neg h1] at h
  by_cases h2 : v.fps = 0
  · rw [if_pos h2] at h
    exact absurd h (by simp)
  rw [if_neg h2] at h
  by_cases h3 : fps = 0
  · rw [if_pos h3] at h
    exact absurd h (by simp)
  rw [if_neg h3] at h
  have hloop : exLoop v.fps (frameIntervalOf v.fps fps) v.frames 0 =
      keptSamples v.fps (frameIntervalOf v.fps fps) v.frames := by
    rw [exLoop_eq]
    unfold keptSamples
    simp
  rw [hloop] at h
  by_cases h4 : (keptSamples v.fps (frameIntervalOf v.fps fps) v.frames).isEmpty
  · rw [if_pos h4] at h
    exact absurd h (by simp)
  rw [if_neg h4] at h
  have hl : keptSamples v.fps (frameIntervalOf v.fps fps) v.frames = l := by
    simpa using h
  refine ⟨hl.symm, ?_⟩
  intro hnil
  apply h4
  rw [hnil, keptSamples_nil]
  rfl

/-- The two clamp spellings agree: min-outside-max equals max-outside-min. -/
theorem clamp_comm (x : ℚ) : min 100 (max 0 x) = max 0 (min 100 x) := by
  rw [max_min_distrib_left]
  norm_num

/-- regionSum counts 255 per edge pixel. -/
theorem regionSum_eq_255_edgeCount (E : ℕ → ℕ → Bool) (y1 y2 x1 x2 : ℕ) :
    regionSum E y1 y2 x1 x2 = 255 * edgeCount E y1 y2 x1 x2 := by
  unfold regionSum edgeCount
  have hrow : ∀ i : ℕ,
      ((List.range (x2 - x1)).map fun j => edgeVal E (y1 + i) (x1 + j)).sum =
        255 * ((List.range (x2 - x1)).map
          (fun j => if E (y1 + i) (x1 + j) then (1 : ℕ) else 0)).sum := by
    intro i
    rw [← List.sum_map_mul_left]
    have hfun : (fun j => edgeVal E (y1 + i) (x1 + j)) =
        (fun j => 255 * if E (y1 + i) (x1 + j) then (1 : ℕ) else 0) := by
      funext j
      unfold edgeVal
      split
      · rfl
      · rfl
    rw [hfun]
  rw [← List.sum_map_mul_left]
  have hfun : (fun i => ((List.range (x2 - x1)).map fun j => edgeVal E (y1 + i) (x1 + j)).sum) =
      (fun i => 255 * ((List.range (x2 - x1)).map
        (fun j => if E (y1 + i) (x1 + j) then (1 : ℕ) else 0)).sum) := by
    funext i
    exact hrow i
  rw [hfun]

/-- Each code window term equals the 255-scaled-fraction window term. -/
theorem rotWindowTerm_eq_mean (height width r : ℕ) (E : ℕ → ℕ → Bool) (p : ℕ × ℕ) :
    rotWindowTerm height width r E p = rotWindowTermMeanSpec height width r E p := by
  simp only [rotWindowTerm, rotWindowTermMeanSpec]
  split_ifs with hs
  · congr 1
    rw [regionSum_eq_255_edgeCount]
    push_cast
    ring
  · rfl

/-- The code rule-of-thirds contribution equals its 255-scaled-fraction
description. -/
theorem rotContribution_eq_mean (height width : ℕ) (E : ℕ → ℕ → Bool) :
    rotContribution height width E = rotContributionMeanSpec height width E := by
  unfold rotContribution rotContributionMeanSpec
  have hfun : rotWindowTerm height width (max height width / 12) E =
      rotWindowTermMeanSpec height width (max height width / 12) E := by
    funext p
    exact rotWindowTerm_eq_mean height width (max height width / 12) E p
  rw [hfun]

/-- Each window term lies in [0, 25]. -/
theorem rotWindowTerm_bounds (height width r : ℕ) (E : ℕ → ℕ → Bool) (p : ℕ × ℕ) :
    0 ≤ rotWindowTerm height width r E p ∧ rotWindowTerm height width r E p ≤ 25 := by
  simp only [rotWindowTerm]
  split_ifs with hs
  · constructor
    · apply le_min
      · norm_num
      · positivity
    · exact min_le_left _ _
  · constructor
    · exact le_refl 0
    · norm_num

/-- The rule-of-thirds contribution is at most 100 (and at least 0). -/
theorem rotContribution_bounds (height width : ℕ) (E : ℕ → ℕ → Bool) :
    0 ≤ rotContribution height width E ∧ rotContribution height width E ≤ 100 := by
  unfold rotContribution rotPoints
  simp only [List.map_cons, List.map_nil, List.sum_cons, List.sum_nil]
  have h1 := rotWindowTerm_bounds height width (max height width / 12) E
    (width / 3, height / 3)
  have h2 := rotWindowTerm_bounds height width (max height width / 12) E
    (2 * (width / 3), height / 3)
  have h3 := rotWindowTerm_bounds height width (max height width / 12) E
    (width / 3, 2 * (height / 3))
  have h4 := rotWindowTerm_bounds height width (max height width / 12) E
    (2 * (width / 3), 2 * (height / 3))
  constructor
  · linarith [h1.1, h2.1, h3.1, h4.1]
  · linarith [h1.2, h2.2, h3.2, h4.2]

/-- The clamped frame interval is a max with 1. -/
theorem frameIntervalOf_eq_max (vf r : ℚ) :
    frameIntervalOf vf r = max 1 (pyTrunc (vf / r)) := by
  unfold frameIntervalOf
  rcases lt_or_le (pyTrunc (vf / r)) 1 with h | h
  · rw [if_pos h, max_eq_left (le_of_lt h)]
  · rw [if_neg (not_lt.mpr h), max_eq_right h]

/-- Python truncation agrees with the floor on non-negative arguments. -/
theorem pyTrunc_eq_floor (q : ℚ) (h : 0 ≤ q) : pyTrunc q = Int.floor q := by
  unfold pyTrunc
  rw [if_neg (not_lt.mpr h)]

/-- Claim C3 counterexample: at native rate F = 3 and requested rate R = 2
the code computes int(3 / 2) = 1 as the decode stride, while the claimed
stride max(1, round(3 / 2)) is 2; consequently extraction of a 3-frame
source keeps all three native frames instead of the claimed subset
{0, 2}. -/
theorem stride_truncates_counterexample :
    frameIntervalOf 3 2 = 1 ∧ strideSpec 3 2 = 2 ∧
    extract_frames (Video.mk true 3 [0, 1, 2] : Video ℕ) 2 =
      .ok [(0, 0), (1, 1 / 3), (2, 2 / 3)] := by
  have h1 : frameIntervalOf 3 2 = 1 := by
    norm_num [frameIntervalOf, pyTrunc]
  refine ⟨h1, ?_, ?_⟩
  · unfold strideSpec
    rw [round_eq]
    norm_num
  · simp only [extract_frames]
    norm_num [h1, exLoop]

/-- Claim C3 (amended): for native rate F > 0 and requested rate R > 0 on an
opened source with a non-empty native frame list, extraction keeps exactly
the native frames whose index k satisfies k mod stride = 0, each at
timestamp k / F, where stride = max(1, trunc(F / R)) — truncating integer
division, not rounding; and R ≥ F still yields stride = 1. -/
theorem extract_frames_stride_multiples {F : Type} (v : Video F) (R : ℚ)
    (hF : 0 < v.fps) (hR : 0 < R) (ho : v.isOpened = true) (hne : v.frames ≠ []) :
    extract_frames v R = .ok (keptSamples v.fps (max 1 (Int.floor (v.fps / R))) v.frames) ∧
    (v.fps ≤ R → max 1 (Int.floor (v.fps / R)) = 1) := by
  have hstride : frameIntervalOf v.fps R = max 1 (Int.floor (v.fps / R)) := by
    rw [frameIntervalOf_eq_max, pyTrunc_eq_floor _ (div_pos hF hR).le]
  constructor
  · rw [← hstride]
    exact extract_frames_eq v R ho (ne_of_gt hF) (ne_of_gt hR) hne
  · intro hle
    have hq : v.fps / R ≤ 1 := (div_le_one hR).mpr hle
    have hfl : Int.floor (v.fps / R) ≤ 1 := by
      calc Int.floor (v.fps / R) ≤ Int.floor (1 : ℚ) := Int.floor_le_floor hq
      _ = 1 := Int.floor_one
    exact max_eq_left hfl

/-- Witness for the amended claim C3 at a concrete source: F = 3, R = 2,
three native frames; the stride is 1 and all frames are kept. -/
theorem extract_frames_stride_multiples_witness :
    extract_frames (Video.mk true 3 [0, 1, 2] : Video ℕ) 2 =
      .ok (keptSamples 3 (max 1 (Int.floor ((3 : ℚ) / 2))) [0, 1, 2]) ∧
    ((3 : ℚ) ≤ 2 → max 1 (Int.floor ((3 : ℚ) / 2)) = 1) :=
  extract_frames_stride_multiples (Video.mk true 3 [0, 1, 2] : Video ℕ) 2
    (by norm_num) (by norm_num) rfl (by simp)

/-- Claim C8 counterexample: a source whose decoder reports the negative
rate F = -1 is NOT rejected — extraction proceeds (stride clamped to 1) and
returns the frame at timestamp 0 / (-1) = 0 instead of failing with the
rate error. -/
theorem negative_rate_not_rejected_counterexample :
    extract_frames (Video.mk true (-1) [7] : Video ℕ) 2 = .ok [(7, 0)] := by
  have h1 : frameIntervalOf (-1) 2 = 1 := by
    norm_num [frameIntervalOf, pyTrunc]
  simp only [extract_frames]
  norm_num [h1, exLoop]

/-- Claim C8 (amended): on a source that opens successfully, extraction
fails with the rate error exactly when the reported rate is 0: a zero rate
raises it, and any non-zero (including negative) rate never does. -/
theorem rate_error_iff_zero_fps {F : Type} (v : Video F) (R : ℚ)
    (ho : v.isOpened = true) :
    (v.fps = 0 → extract_frames v R = .error .fpsIndeterminate) ∧
    (v.fps ≠ 0 → extract_frames v R ≠ .error .fpsIndeterminate) := by
  constructor
  · intro h0
    simp [extract_frames, ho, h0]
  · intro h0 hcontra
    unfold extract_frames at hcontra
    rw [ho] at hcontra
    simp only [Bool.true_eq_false, if_false] at hcontra
    rw [if_neg h0] at hcontra
    by_cases hr : R = 0
    · rw [if_pos hr] at hcontra
      exact absurd hcontra (by simp)
    rw [if_neg hr] at hcontra
    by_cases hk : (exLoop v.fps (frameIntervalOf v.fps R) v.frames 0).isEmpty
    · rw [if_pos hk] at hcontra
      exact absurd hcontra (by simp)
    · rw [if_neg hk] at hcontra
      exact absurd hcontra (by simp)

/-- Witness for the amended claim C8: reported rate 0 raises the rate
error, reported rate 5 does not. -/
theorem rate_error_iff_zero_fps_witness :
    extract_frames (Video.mk true 0 [7] : Video ℕ) 2 = .error .fpsIndeterminate ∧
    extract_frames (Video.mk true 5 [7] : Video ℕ) 2 ≠ .error .fpsIndeterminate :=
  ⟨(rate_error_iff_zero_fps (Video.mk true 0 [7] : Video ℕ) 2 rfl).1 rfl,
    (rate_error_iff_zero_fps (Video.mk true 5 [7] : Video ℕ) 2 rfl).2 (by norm_num)⟩

/-- Claim C10: every successful extraction from a source with positive
native rate starts with the native frame of index 0 at timestamp exactly 0,
and the timestamps are strictly increasing. -/
theorem extract_frames_first_and_sorted {F : Type} (v : Video F) (R : ℚ)
    (l : List (F × ℚ)) (hF : 0 < v.fps) (h : extract_frames v R = .ok l) :
    (∃ f0, v.frames.get? 0 = some f0 ∧ l.get? 0 = some (f0, 0)) ∧
    (l.map Prod.snd).Pairwise (fun a b => a < b) := by
  rcases extract_frames_ok_inv v R l h with ⟨hl, hne⟩
  subst hl
  constructor
  · rcases List.exists_cons_of_ne_nil hne with ⟨a, rest, hcons⟩
    rcases keptSamples_cons v.fps (frameIntervalOf v.fps R) a rest with ⟨t, ht⟩
    refine ⟨a, ?_, ?_⟩
    · rw [hcons]
      rfl
    · rw [hcons, ht]
      rfl
  · exact keptSamples_timestamps_sorted v.fps hF _ v.frames

/-- Witness for claim C10 at a concrete source: F = 2, two native frames,
R = 2 keeps both with timestamps 0 and 1/2. -/
theorem extract_frames_first_and_sorted_witness :
    (∃ f0, ([5, 7] : List ℕ).get? 0 = some f0 ∧
      ([(5, 0), (7, 1 / 2)] : List (ℕ × ℚ)).get? 0 = some (f0, 0)) ∧
    (([(5, 0), (7, 1 / 2)] : List (ℕ × ℚ)).map Prod.snd).Pairwise (fun a b => a < b) :=
  extract_frames_first_and_sorted (Video.mk true 2 [5, 7] : Video ℕ) 2
    [(5, 0), (7, 1 / 2)] (by norm_num)
    (by
      have h1 : frameIntervalOf 2 2 = 1 := by
        norm_num [frameIntervalOf, pyTrunc]
      simp only [extract_frames]
      norm_num [h1, exLoop])

/-- Claim C4 counterexample: score_all_frames on a zero-length sample list
does NOT raise — it returns the empty result list (its type has no error
case at all, faithfully to the Python function which contains no raise). -/
theorem score_all_empty_counterexample :
    score_all_frames (constMetrics 0 0 0 0 0) ([] : List (Unit × ℚ)) DEFAULT_WEIGHTS
      (none : Option (ℕ → ℕ → Unit → Unit)) () = ([], ()) := by
  rfl

/-- Claim C4 (amended): find_best_frame fails with the empty-input error on
a zero-length sequence, while score_all_frames returns the empty result
list (performing no hook calls) rather than raising. -/
theorem empty_input_behavior {F σ : Type} (M : MetricFns F) (w : WeightSet)
    (cb : Option (ℕ → ℕ → σ → σ)) (s0 : σ) :
    find_best_frame M ([] : List (F × ℚ)) w cb s0 = .error .emptyInput ∧
    score_all_frames M ([] : List (F × ℚ)) w cb s0 = ([], s0) :=
  ⟨rfl, rfl⟩

/-- Every sample scores a non-negative overall value when the weights and
the metric outputs are non-negative (the spec fixes WeightSet entries as
non-negative and each metric range inside [0, 100]). -/
theorem overallOf_nonneg {F : Type} (M : MetricFns F) (w : WeightSet)
    (hw : 0 ≤ w.sharpness ∧ 0 ≤ w.face_clarity ∧ 0 ≤ w.brightness ∧ 0 ≤ w.composition)
    (hM : ∀ fr : F, 0 ≤ M.sharpness fr ∧ 0 ≤ (M.face fr).1 ∧
      0 ≤ M.brightness fr ∧ 0 ≤ M.composition fr)
    (x : F × ℚ) : 0 ≤ overallOf M w x := by
  unfold overallOf score_frame
  have h := hM x.1
  exact add_nonneg (add_nonneg (add_nonneg
    (mul_nonneg h.1 hw.1)
    (mul_nonneg h.2.1 hw.2.1))
    (mul_nonneg h.2.2.1 hw.2.2.1))
    (mul_nonneg h.2.2.2 hw.2.2.2)

/-- Claim C1: on a non-empty sample list with a WeightSet (non-negative
weights) and metrics in range, find_best_frame returns an index inside
[0, n) and the ScoreBreakdown of exactly the sample at that index, whose
overall field is the weighted sum of the four metric values. -/
theorem find_best_frame_roundtrip {F σ : Type} (M : MetricFns F)
    (frames : List (F × ℚ)) (w : WeightSet)
    (cb : Option (ℕ → ℕ → σ → σ)) (s0 : σ)
    (hne : frames ≠ [])
    (hw : 0 ≤ w.sharpness ∧ 0 ≤ w.face_clarity ∧ 0 ≤ w.brightness ∧ 0 ≤ w.composition)
    (hM : ∀ fr : F, 0 ≤ M.sharpness fr ∧ 0 ≤ (M.face fr).1 ∧
      0 ≤ M.brightness fr ∧ 0 ≤ M.composition fr) :
    ∃ i e sf, frames.get? i = some e ∧ i < frames.length ∧
      find_best_frame M frames w cb s0 =
        .ok ((i, e.1, e.2, some (score_frame M w e.1)), sf) ∧
      (score_frame M w e.1).overall =
        M.sharpness e.1 * w.sharpness + (M.face e.1).1 * w.face_clarity +
          M.brightness e.1 * w.brightness + M.composition e.1 * w.composition := by
  have hnn : ∀ x ∈ frames, 0 ≤ overallOf M w x :=
    fun x _ => overallOf_nonneg M w hw hM x
  rcases find_best_frame_spec M w frames cb s0 hne hnn with
    ⟨k, e, sf, hget, hok, _, _⟩
  rcases List.get?_eq_some.mp hget with ⟨hlt, _⟩
  exact ⟨k, e, sf, hget, hlt, hok, rfl⟩

/-- Witness for claim C1 at one concrete sample with the default weights. -/
theorem find_best_frame_roundtrip_witness :
    ∃ i e sf, ([((), (5 : ℚ))] : List (Unit × ℚ)).get? i = some e ∧
      i < ([((), (5 : ℚ))] : List (Unit × ℚ)).length ∧
      find_best_frame (constMetrics 10 20 1 30 40) [((), (5 : ℚ))] DEFAULT_WEIGHTS
          (none : Option (ℕ → ℕ → Unit → Unit)) () =
        .ok ((i, e.1, e.2,
          some (score_frame (constMetrics 10 20 1 30 40) DEFAULT_WEIGHTS e.1)), sf) ∧
      (score_frame (constMetrics 10 20 1 30 40) DEFAULT_WEIGHTS e.1).overall =
        (constMetrics 10 20 1 30 40).sharpness e.1 * DEFAULT_WEIGHTS.sharpness +
          ((constMetrics 10 20 1 30 40).face e.1).1 * DEFAULT_WEIGHTS.face_clarity +
          (constMetrics 10 20 1 30 40).brightness e.1 * DEFAULT_WEIGHTS.brightness +
          (constMetrics 10 20 1 30 40).composition e.1 * DEFAULT_WEIGHTS.composition :=
  find_best_frame_roundtrip (constMetrics 10 20 1 30 40) [((), (5 : ℚ))]
    DEFAULT_WEIGHTS none ()
    (by simp)
    (by refine ⟨?_, ?_, ?_, ?_⟩ <;> norm_num [DEFAULT_WEIGHTS])
    (by
      intro fr
      refine ⟨?_, ?_, ?_, ?_⟩ <;> norm_num [constMetrics])

/-- Claim C2: find_best_frame always selects the FIRST sample attaining the
maximal overall score — every sample scores at most the winner, and every
sample at a strictly smaller index scores strictly less, so later
equal-scoring samples never displace the winner. -/
theorem find_best_frame_first_argmax {F σ : Type} (M : MetricFns F)
    (frames : List (F × ℚ)) (w : WeightSet)
    (cb : Option (ℕ → ℕ → σ → σ)) (s0 : σ)
    (hne : frames ≠ [])
    (hw : 0 ≤ w.sharpness ∧ 0 ≤ w.face_clarity ∧ 0 ≤ w.brightness ∧ 0 ≤ w.composition)
    (hM : ∀ fr : F, 0 ≤ M.sharpness fr ∧ 0 ≤ (M.face fr).1 ∧
      0 ≤ M.brightness fr ∧ 0 ≤ M.composition fr) :
    ∃ i e sf, frames.get? i = some e ∧
      find_best_frame M frames w cb s0 =
        .ok ((i, e.1, e.2, some (score_frame M w e.1)), sf) ∧
      (∀ x ∈ frames, (score_frame M w x.1).overall ≤ (score_frame M w e.1).overall) ∧
      (∀ j x, j < i → frames.get? j = some x →
        (score_frame M w x.1).overall < (score_frame M w e.1).overall) := by
  have hnn : ∀ x ∈ frames, 0 ≤ overallOf M w x :=
    fun x _ => overallOf_nonneg M w hw hM x
  rcases find_best_frame_spec M w frames cb s0 hne hnn with
    ⟨k, e, sf, hget, hok, hall, hfirst⟩
  exact ⟨k, e, sf, hget, hok, hall, hfirst⟩

/-- Witness for claim C2: two samples with identical metric values — the
lower index wins the tie. -/
theorem find_best_frame_first_argmax_witness :
    ∃ i e sf, ([((), (0 : ℚ)), ((), (1 : ℚ))] : List (Unit × ℚ)).get? i = some e ∧
      find_best_frame (constMetrics 10 20 1 30 40)
          [((), (0 : ℚ)), ((), (1 : ℚ))] DEFAULT_WEIGHTS
          (none : Option (ℕ → ℕ → Unit → Unit)) () =
        .ok ((i, e.1, e.2,
          some (score_frame (constMetrics 10 20 1 30 40) DEFAULT_WEIGHTS e.1)), sf) ∧
      (∀ x ∈ ([((), (0 : ℚ)), ((), (1 : ℚ))] : List (Unit × ℚ)),
        (score_frame (constMetrics 10 20 1 30 40) DEFAULT_WEIGHTS x.1).overall ≤
          (score_frame (constMetrics 10 20 1 30 40) DEFAULT_WEIGHTS e.1).overall) ∧
      (∀ j x, j < i → ([((), (0 : ℚ)), ((), (1 : ℚ))] : List (Unit × ℚ)).get? j = some x →
        (score_frame (constMetrics 10 20 1 30 40) DEFAULT_WEIGHTS x.1).overall <
          (score_frame (constMetrics 10 20 1 30 40) DEFAULT_WEIGHTS e.1).overall) :=
  find_best_frame_first_argmax (constMetrics 10 20 1 30 40)
    [((), (0 : ℚ)), ((), (1 : ℚ))] DEFAULT_WEIGHTS none ()
    (by simp)
    (by refine ⟨?_, ?_, ?_, ?_⟩ <;> norm_num [DEFAULT_WEIGHTS])
    (by
      intro fr
      refine ⟨?_, ?_, ?_, ?_⟩ <;> norm_num [constMetrics])

/-- Claim C9: running find_best_frame or score_all_frames with any progress
hook yields exactly the same scoring results (same index, frame, timestamp
and breakdowns, in the same order) as running them with any other hook or
with none, and the hook itself is applied once per scored sample with
(samples-done, total-samples). -/
theorem progress_hook_transparent {F σ σ' : Type} (M : MetricFns F)
    (frames : List (F × ℚ)) (w : WeightSet)
    (cb : Option (ℕ → ℕ → σ → σ)) (s0 : σ)
    (cb' : Option (ℕ → ℕ → σ' → σ')) (s0' : σ') :
    Except.map Prod.fst (find_best_frame M frames w cb s0) =
      Except.map Prod.fst (find_best_frame M frames w cb' s0') ∧
    (score_all_frames M frames w cb s0).1 = (score_all_frames M frames w cb' s0').1 ∧
    (score_all_frames M frames w cb s0).1 =
      frames.map (fun e => (e.2, score_frame M w e.1)) ∧
    (score_all_frames M frames w cb s0).2 =
      (List.range' 1 frames.length).foldl (fun t d => cbApply cb d frames.length t) s0 ∧
    (find_best_frame M frames w cb s0 = .error .emptyInput ∨
      Except.map Prod.snd (find_best_frame M frames w cb s0) =
        .ok ((List.range' 1 frames.length).foldl
          (fun t d => cbApply cb d frames.length t) s0)) := by
  refine ⟨?_, ?_, ?_, ?_, ?_⟩
  · cases hie : frames.isEmpty with
    | true =>
      simp only [find_best_frame, hie, if_true]
      rfl
    | false =>
      have hfst := fbLoopCB_fst_hook_free M w frames.length frames.length cb cb'
        frames 0 (0, -1, none) s0 s0'
      simp only [find_best_frame, hie, Bool.false_eq_true, if_false]
      rw [← hfst]
      cases hget : frames.get? (fbLoopCB M w frames.length cb frames 0 (0, -1, none) s0).1.1 with
      | none => rfl
      | some e => rfl
  · unfold score_all_frames
    rw [saLoopCB_fst, saLoopCB_fst]
  · unfold score_all_frames
    rw [saLoopCB_fst]
    simp
  · unfold score_all_frames
    rw [saLoopCB_snd]
  · cases frames with
    | nil =>
      left
      rfl
    | cons a rest =>
      right
      have hsnd := fbLoopCB_snd M w (a :: rest).length cb (a :: rest) 0 (0, -1, none) s0
      rcases fbLoopCB_spec M w (a :: rest).length cb (a :: rest) 0 (0, -1, none) s0 with
        ⟨heq, _⟩ | ⟨k, e, hget, hres, _, _, _⟩
      · simp only [find_best_frame, List.isEmpty_cons, Bool.false_eq_true, if_false, heq,
          List.get?_cons_zero]
        rw [hsnd]
        rfl
      · simp only [find_best_frame, List.isEmpty_cons, Bool.false_eq_true, if_false, hres,
          Nat.zero_add, hget]
        rw [hsnd]
        rfl

/-- Claim C5 counterexample: on a uniform white frame (mu = 255, sigma = 0,
no dark pixels, all pixels in the bright bins) the claim's gloss — centering
degrades to 0 at mu = 255 — predicts a total of clamp(0 + 0 + 5) = 5, but
the centering term 50 * (1 - |255 - 127| / 127) is -50/127 (since
|255 - 127| = 128 > 127), so the code scores 5 - 50/127, not 5. -/
theorem brightness_centering_at_255_counterexample :
    calculate_brightness_balance 255 0 0 1 = 5 - 50 / 127 ∧ (5 - 50 / 127 : ℚ) ≠ 5 := by
  constructor
  · simp only [calculate_brightness_balance]
    rw [abs_of_nonneg (by norm_num : (0 : ℚ) ≤ 255 - 127)]
    norm_num [min_def, max_def]
  · norm_num

/-- Claim C5 (amended): the brightness score equals
clamp(centering + clipping + contrast, 0, 100) with
centering = 50 * (1 - |mu - 127| / 127) (zero at mu = 0 and mu = 254 and
slightly negative at mu = 255), clipping = max(0, 30 - clip * 100) for the
total clipped fraction clip = dark + bright, and the claimed contrast step
function with boundary values in the higher band. -/
theorem brightness_matches_spec (mu sigma d b : ℚ) :
    calculate_brightness_balance mu sigma d b = brightnessSpec mu sigma (d + b) := by
  simp only [calculate_brightness_balance, brightnessSpec, clampSpec, contrastBandSpec,
    Set.mem_Icc, Set.mem_union, Set.mem_Ico, Set.mem_Ioc]
  rw [← clamp_comm]
  split_ifs <;> ring_nf

/-- Claim C6: zero detected faces score exactly (0, 0); for n ≥ 1 boxes the
score is min(min(coverage * 3, 70) + bonus, 100) with
coverage = 100 * (sum of box areas) / (frame area) — overlapping boxes
summed without de-duplication — and bonus 30 for 1-3 faces, 20 for 4,
10 for 5, 5 for 6 or more. -/
theorem face_score_matches_spec (height width : ℕ) (faces : List (ℕ × ℕ × ℕ × ℕ)) :
    (faces = [] → detect_faces_score height width faces = (0, 0)) ∧
    (faces ≠ [] → detect_faces_score height width faces =
      (faceScoreSpec height width faces, faces.length)) := by
  constructor
  · intro h
    subst h
    rfl
  · intro h
    have hlen : faces.length ≠ 0 := by
      simpa [List.length_eq_zero] using h
    simp only [detect_faces_score, faceScoreSpec]
    rw [if_neg hlen]
    simp only [Prod.mk.injEq]
    refine ⟨?_, trivial⟩
    have harg : ((((faces.map fun b => b.2.2.1 * b.2.2.2).sum : ℕ) : ℚ) /
        (((height * width : ℕ) : ℚ))) * 100 * 3 =
        100 * (((faces.map fun b => b.2.2.1 * b.2.2.2).sum : ℕ) : ℚ) /
          (((height * width : ℕ) : ℚ)) * 3 := by
      ring
    rw [harg]
    split_ifs <;> first | rfl | omega

/-- Witness for claim C6: one 2x2 box on a 4x4 frame for the non-empty
branch, and the empty branch. -/
theorem face_score_matches_spec_witness :
    detect_faces_score 4 4 [(0, 0, 2, 2)] = (faceScoreSpec 4 4 [(0, 0, 2, 2)], 1) ∧
    detect_faces_score 4 4 ([] : List (ℕ × ℕ × ℕ × ℕ)) = (0, 0) :=
  ⟨(face_score_matches_spec 4 4 [(0, 0, 2, 2)]).2 (by simp),
    (face_score_matches_spec 4 4 []).1 rfl⟩

/-- Claim C7 counterexample: on a 24x24 frame whose edge map is everywhere
edges, the code awards the full 25 per rule-of-thirds point (density is the
mean of the 0/255 map, here 255, and min(25, 25.5) = 25, total 100), while
the claim's fraction-of-edge-pixels density gives min(25, 1/10) = 1/10 per
point, total only 2/5. -/
theorem rot_density_counterexample :
    rotContribution 24 24 (fun _ _ => true) = 100 ∧
    rotContributionFracSpec 24 24 (fun _ _ => true) = 2 / 5 := by
  have hrs1 : regionSum (fun _ _ => true) 6 10 6 10 = 4080 := by decide
  have hrs2 : regionSum (fun _ _ => true) 6 10 14 18 = 4080 := by decide
  have hrs3 : regionSum (fun _ _ => true) 14 18 6 10 = 4080 := by decide
  have hrs4 : regionSum (fun _ _ => true) 14 18 14 18 = 4080 := by decide
  have hec1 : edgeCount (fun _ _ => true) 6 10 6 10 = 16 := by decide
  have hec2 : edgeCount (fun _ _ => true) 6 10 14 18 = 16 := by decide
  have hec3 : edgeCount (fun _ _ => true) 14 18 6 10 = 16 := by decide
  have hec4 : edgeCount (fun _ _ => true) 14 18 14 18 = 16 := by decide
  constructor
  · simp only [rotContribution, rotPoints, List.map_cons, List.map_nil, List.sum_cons,
      List.sum_nil]
    norm_num [rotWindowTerm, hrs1, hrs2, hrs3, hrs4, min_def]
  · simp only [rotContributionFracSpec, rotPoints, List.map_cons, List.map_nil,
      List.sum_cons, List.sum_nil]
    norm_num [rotWindowTermFracSpec, hec1, hec2, hec3, hec4, min_def]

/-- Claim C7 (amended): the rule-of-thirds contribution inspects, for each
of the four intersection points, the square window of half-width
max(height, width) / 12 centered on the point, takes as density the mean of
the 0/255 edge map over the window — 255 times the fraction of edge
pixels — and awards min(25, density / 10) per point, hence at most 100
before the balance and center-penalty terms; the final composition score is
clamped to [0, 100]. -/
theorem rot_contribution_mean_density (height width : ℕ) (E : ℕ → ℕ → Bool) :
    rotContribution height width E = rotContributionMeanSpec height width E ∧
    rotContribution height width E ≤ 100 ∧
    0 ≤ calculate_composition_score height width E ∧
    calculate_composition_score height width E ≤ 100 := by
  refine ⟨rotContribution_eq_mean height width E,
    (rotContribution_bounds height width E).2, ?_, ?_⟩
  · simp only [calculate_composition_score]
    exact le_min (by norm_num) (le_max_left _ _)
  · simp only [calculate_composition_score]
    exact min_le_left _ _

end VideoFreeze
